import Mathlib

/-!
Shallow embedding of the core of the nexus Go SDK under verification
(src/nexus/server.go, src/nexus/handle.go, src/nexus/completion.go).

Conventions of the embedding:

* Go time.Duration values and absolute instants are modelled as Int
  (nanoseconds, the unit of time.Duration); time.Time zero value is 0.
* Go errors relevant to the embedded code paths are a closed inductive
  GoError.  errors.Is and errors.As are tag tests on it (the source never
  wraps the errors it dispatches on along these paths).
* HTTP responses written by the server are summarised by the fields that
  the embedded code writes: status code, the operation-state header, the
  JSON content-type flag and the decoded Failure body.
* Constants and helpers of this repository that are not under src/
  (api.go constants, LazyValue, the Link codec, HandlerErrorf,
  isMediaTypeJSON, time.ParseDuration outcomes) are modelled from the
  spec; each such definition carries a doc comment saying so.
-/

/-- Structured error payload carried as a JSON body (spec section 3; the
Failure struct of the source).  Fields beyond the message are opaque to the
core and irrelevant to the claims. -/
structure Failure where
  message : String
deriving DecidableEq, Repr

/-- Operation state enumeration (spec section 3). -/
inductive OperationState where
  | running
  | succeeded
  | failed
  | canceled
deriving DecidableEq, Repr

/-- Wire spelling of an operation state (spec sections 3 and 6: lowercase
words on the wire). -/
def OperationState.wire : OperationState → String
  | .running => "running"
  | .succeeded => "succeeded"
  | .failed => "failed"
  | .canceled => "canceled"

/-- Modelled from the spec: the reserved protocol status code for
"operation still running" (api.go is not under src/).  Spec section 6 only
requires it to be a reserved code distinct from the standard outcomes used
here (200, 201, 202, 400, 408, 500); the claims depend on distinctness
only, not on the concrete number. -/
def statusOperationRunning : Int := 412

/-- Modelled from the spec: the reserved protocol status code for
"operation failed/canceled" (api.go is not under src/); distinct from the
standard outcomes used here and from statusOperationRunning. -/
def statusOperationFailed : Int := 424

/-- Go errors appearing on the embedded code paths.  transport stands for
request construction / network I/O errors surfaced verbatim; waitTimeout
is the internal sentinel errOperationWaitTimeout; stillRunning is
ErrOperationStillRunning; generic covers all other plain errors. -/
inductive GoError where
  | transport
  | waitTimeout
  | stillRunning
  | unsuccessful (state : OperationState) (failure : Failure)
  | handlerError (statusCode : Int) (failure : Option Failure)
  | generic (msg : String)
deriving DecidableEq, Repr

/-- The observable parts of an HTTP response written by the server-side
handlers: status code, operation-state header, whether the JSON
content-type header was set, and the Failure body (decoded). -/
structure HttpResp where
  status : Int
  opState : Option OperationState := none
  ctJSON : Bool := false
  body : Option Failure := none
deriving DecidableEq, Repr

/-- baseHTTPHandler.writeFailure (server.go lines 207-252).  Dispatches on
the error via errors.As in source order: UnsuccessfulOperationError first
(guarding the state to failed/canceled, otherwise a bare 500), then
HandlerError (status code passed through, optional body), otherwise the
internal-error branch with the fixed message.  json.Marshal of a Failure
is total in the model (it cannot fail on this struct). -/
def writeFailure : GoError → HttpResp
  | .unsuccessful state failure =>
    if state = .failed ∨ state = .canceled then
      { status := statusOperationFailed
        opState := some state
        ctJSON := true
        body := some failure }
    else
      { status := 500 }
  | .handlerError sc failure =>
    { status := sc, ctJSON := failure.isSome, body := failure }
  | _ =>
    { status := 500, ctJSON := true, body := some { message := "internal server error" } }

/-- Outcome of reading the wait query parameter in
httpHandler.getOperationResult: request.URL.Query().Get(queryWait) returns
the empty string when the parameter is absent (absent), and
time.ParseDuration (Go standard library, modelled by outcome) either fails
(malformed) or yields a duration (dur). -/
inductive WaitQ where
  | absent
  | malformed
  | dur (d : Int)
deriving DecidableEq, Repr

/-- The value stored into handlerRequest.Wait (zero unless the query
parsed to a duration). -/
def WaitQ.handlerWait : WaitQ → Int
  | .absent => 0
  | .malformed => 0
  | .dur d => d

/-- httpHandler.getOperationResult (server.go lines 274-316), from the
point where the wait query parameter is examined.  hres is the user
Handler result; ctxErr is the observed value of ctx.Err() != nil after the
Handler returned, where ctx is the context derived with
HandlerOptions.GetResultTimeout when a wait parameter was present and the
plain request context otherwise.  A successful Handler response renders as
status 200 (OperationResponseSync.applyToHTTPResponse). -/
def getOperationResultServer (wait : WaitQ) (hres : Except GoError Unit)
    (ctxErr : Bool) : HttpResp :=
  match wait with
  | .malformed =>
    writeFailure (.handlerError 400 (some { message := "invalid wait query parameter" }))
  | _ =>
    match hres with
    | .ok _ => { status := 200 }
    | .error e =>
      if wait.handlerWait > 0 ∧ ctxErr then { status := 408 }
      else if e = .stillRunning then { status := statusOperationRunning }
      else writeFailure e

/-- getResultContextPadding (handle.go line 12): time.Second * 5, in
nanoseconds. -/
def getResultContextPadding : Int := 5000000000

/-- The classified outcome of one call to the injected HTTPCaller inside
OperationHandle.sendGetOperationRequest: either a transport error or a
response summarised by status code, operation-state header and decoded
Failure body. -/
inductive GetReply where
  | transportErr
  | http (status : Int) (opState : Option OperationState) (failure : Option Failure)
deriving DecidableEq, Repr

/-- OperationHandle.sendGetOperationRequest (handle.go lines 123-160).
200 passes the response through; 408 becomes the errOperationWaitTimeout
sentinel; the reserved running status becomes ErrOperationStillRunning;
the reserved failed status requires a valid failed/canceled state header
and a decodable Failure body (getUnsuccessfulStateFromHeader and
failureFromResponse are not under src/ and are modelled from spec section
7: either part missing makes it a plain error instead); any other status
becomes a best-effort HandlerError carrying the status code. -/
def sendGetOperationRequest : GetReply → Except GoError Unit
  | .transportErr => .error .transport
  | .http status opState failure =>
    if status = 200 then .ok ()
    else if status = 408 then .error .waitTimeout
    else if status = statusOperationRunning then .error .stillRunning
    else if status = statusOperationFailed then
      match opState, failure with
      | some s, some f =>
        if s = .failed ∨ s = .canceled then .error (.unsuccessful s f)
        else .error (.generic "invalid operation state header")
      | _, _ => .error (.generic "failed reading state header or failure body")
    else .error (.handlerError status failure)

/-- Environment of one OperationHandle.GetResult call: options.Wait, the
context deadline (if set) and the startTime recorded at line 79. -/
structure PollEnv where
  wait : Int
  deadline : Option Int
  startTime : Int
deriving DecidableEq, Repr

/-- One iteration of the long-poll loop as seen from outside: the clock
value when the wait clamp is computed (tBuild, the now() inside
time.Until), the classified reply, and the clock value when time.Since is
evaluated after an error (tAfter). -/
structure PollStep where
  tBuild : Int
  reply : GetReply
  tAfter : Int
deriving DecidableEq, Repr

/-- One outbound request of the loop: the clock at query construction, the
value of the wait variable on entry to the iteration, and the wait
duration placed in the query (the wire carries its millisecond count as
"wait=<n>ms"; none means RawQuery was reset to the empty string). -/
structure SentReq where
  tBuild : Int
  waitEntry : Int
  query : Option Int
deriving DecidableEq, Repr

/-- Result of the loop: success (the 200 path was reached), an error
returned to the caller, or the supplied reply trace ran out while the
loop would have kept iterating. -/
inductive LoopOutcome where
  | ok
  | err (e : GoError)
  | outOfSteps (wait : Int)
deriving DecidableEq, Repr

structure LoopResult where
  requests : List SentReq
  outcome : LoopOutcome
deriving DecidableEq, Repr

/-- The deadline clamp of handle.go lines 82-87: inside the wait > 0
branch, wait becomes min(wait, time.Until(deadline) + padding) when the
context has a deadline; outside that branch wait is untouched. -/
def clampWait (env : PollEnv) (wait tBuild : Int) : Int :=
  if wait > 0 then
    match env.deadline with
    | some d => min wait (d - tBuild + getResultContextPadding)
    | none => wait
  else wait

/-- The long-poll loop of OperationHandle.GetResult (handle.go lines
79-121), driven by a finite trace of iteration observations.  Each
iteration sets the wait query parameter (with the clamped value) when the
entry wait is positive and clears RawQuery otherwise, sends the request,
and on the errOperationWaitTimeout sentinel with a (clamped) positive wait
recomputes wait as options.Wait - time.Since(startTime) and continues. -/
def getResultLoop (env : PollEnv) : Int → List PollStep → LoopResult
  | wait, [] => { requests := [], outcome := .outOfSteps wait }
  | wait, step :: rest =>
    let wait2 := clampWait env wait step.tBuild
    let req : SentReq :=
      { tBuild := step.tBuild
        waitEntry := wait
        query := if wait > 0 then some wait2 else none }
    match sendGetOperationRequest step.reply with
    | .ok _ => { requests := [req], outcome := .ok }
    | .error e =>
      if wait2 > 0 ∧ e = .waitTimeout then
        let res := getResultLoop env (env.wait - (step.tAfter - env.startTime)) rest
        { requests := req :: res.requests, outcome := res.outcome }
      else { requests := [req], outcome := .err e }

/-- OperationHandle.GetResult enters the loop with wait := options.Wait
(handle.go line 80). -/
def runGetResult (env : PollEnv) (steps : List PollStep) : LoopResult :=
  getResultLoop env env.wait steps

/-- A server reply repackaged as the client-side classification, for
composing the two models. -/
def replyOfResp (r : HttpResp) : GetReply :=
  .http r.status r.opState r.body

/-- A streaming body together with its projected transport headers (the
Reader struct; spec section 3).  The stream is its list of not yet read
bytes. -/
structure NexusReader where
  stream : List Nat
  header : List (String × String)

/-- Modelled from the spec (section 4.B header projection; the helper is
not under src/): headers in the Content-* namespace are projected with the
content- prefix stripped and keys lowercased. -/
def prefixStrippedHTTPHeaderToNexusHeader (h : List (String × String)) :
    List (String × String) :=
  (h.filter (fun kv => kv.1.toLower.startsWith "content-")).map
    (fun kv => (kv.1.toLower.drop 8, kv.2))

/-- The LazyValue struct (spec sections 3 and 4.B; lazy_value.go is not
under src/): a serializer, the wrapped reader and whether the stream has
been closed. -/
structure LazyValue where
  serializer : List Nat → Except String (List Nat)
  reader : NexusReader
  closed : Bool

/-- Modelled from the spec (section 4.B; Consume is not under src/):
drains the stream, deserializes the accumulated content and closes the
stream, returning any error from deserialization. -/
def LazyValue.consume (lv : LazyValue) : Except String (List Nat) × LazyValue :=
  (lv.serializer lv.reader.stream,
   { lv with reader := { lv.reader with stream := [] }, closed := true })

/-- The LazyValue constructed on the 200 path of GetResult (handle.go
lines 108-114): the client serializer, the response body and the
content-stripped response headers; nothing has been read yet. -/
def mkLazyValue (ser : List Nat → Except String (List Nat)) (respBody : List Nat)
    (respHeader : List (String × String)) : LazyValue :=
  { serializer := ser
    reader := { stream := respBody, header := prefixStrippedHTTPHeaderToNexusHeader respHeader }
    closed := false }

/-- The handle type parameter T as far as the 200 path dispatch is
concerned: either T is LazyValue or it is any other type. -/
inductive ResultKind where
  | lazyValue
  | typed
deriving DecidableEq, Repr

/-- What GetResult returns on the 200 path: the LazyValue itself, or the
outcome of Consume into the typed result. -/
inductive GetResultReturn where
  | lazy (lv : LazyValue)
  | val (v : Except String (List Nat))

/-- The 200 path of OperationHandle.GetResult (handle.go lines 108-119):
build the LazyValue; if T is LazyValue return it as is, otherwise call
Consume and return the decoded value together with the Consume error.
The second component is the final state of the LazyValue (what happened
to the response stream). -/
def getResultOn200 (kind : ResultKind) (ser : List Nat → Except String (List Nat))
    (respBody : List Nat) (respHeader : List (String × String)) :
    GetResultReturn × LazyValue :=
  let s := mkLazyValue ser respBody respHeader
  match kind with
  | .lazyValue => (.lazy s, s)
  | .typed =>
    let c := s.consume
    (.val c.1, c.2)

/-- Modelled from the spec (section 6 wire spellings; api.go is not under
src/): the operation-state header name. -/
def headerOperationState : String := "Nexus-Operation-State"

/-- Modelled from the spec (section 6): the operation-id header name. -/
def headerOperationID : String := "Nexus-Operation-Id"

/-- Modelled from the spec (section 6): the operation start time header
name. -/
def headerOperationStartTime : String := "Nexus-Operation-Start-Time"

/-- Modelled from the spec (section 6): the link header name. -/
def headerLink : String := "Nexus-Link"

/-- Modelled from the spec (section 6): the JSON content type. -/
def contentTypeJSON : String := "application/json"

/-- Go http.Header modelled as a total map from header name to list of
values (the source accesses it through Get, Set and Add only, always with
canonical constant keys). -/
abbrev Header := String → List String

def emptyHeader : Header := fun _ => []

/-- http.Header.Get: first value, or the empty string when absent (also
the behavior of Get on a nil map). -/
def hGet (h : Header) (k : String) : String := (h k).headD ""

/-- http.Header.Set: replace all values of the key with one value. -/
def hSet (h : Header) (k v : String) : Header :=
  fun q => if q = k then [v] else h q

/-- http.Header.Add: append one value for the key. -/
def hAdd (h : Header) (k v : String) : Header :=
  fun q => if q = k then h k ++ [v] else h q

/-- Get on the possibly nil caller-supplied header map (Go map reads on a
nil map yield the zero value). -/
def chGet : Option Header → String → String
  | none, _ => ""
  | some h, k => hGet h k

/-- Modelled from the spec (sections 1, 3 and 9: the Link codec is an
external collaborator with an opaque encoding): links are an ordered
sequence; addLinksToHTTPHeader (not under src/) adds one link header value
per link and never fails on the inputs arising here. -/
def addLinksToHTTPHeader (links : List String) (h : Header) : Header :=
  links.foldl (fun hh l => hAdd hh headerLink l) h

/-- Modelled from the spec: time.Time.Format(http.TimeFormat) rendered
opaquely; the claims only use that a nonzero start time produces a
nonempty fixed rendering. -/
def formatHTTPTime (t : Int) : String := toString t

/-- OperationCompletionSuccessful (completion.go lines 35-47); the body is
the byte stream, the start time is 0 when the Go zero time. -/
structure OperationCompletionSuccessful where
  header : Option Header
  body : List Nat
  operationID : String
  startTime : Int
  startLinks : List String

/-- OperationCompletionUnsuccessful (completion.go lines 124-137). -/
structure OperationCompletionUnsuccessful where
  header : Option Header
  state : OperationState
  operationID : String
  startTime : Int
  startLinks : List String
  failure : Option Failure

/-- The header map a completion applyToHTTPRequest starts from: the clone
of the caller-supplied map when non-nil, otherwise the request map as
built by http.NewRequestWithContext. -/
def baseHeaderOf (h : Option Header) (reqH : Header) : Header :=
  match h with
  | some ch => ch
  | none => reqH

/-- OperationCompletionSuccessful.applyToHTTPRequest (completion.go lines
97-120): clone the caller header onto the request when non-nil, force the
operation-state header to succeeded, and populate operation id, start time
and links from the struct fields only when the caller-supplied map (read
through c.Header, the original) lacks a value.  Returns the final request
header and body. -/
def applyToHTTPRequestSuccessful (c : OperationCompletionSuccessful)
    (reqHeader : Header) : Header × List Nat :=
  let h0 := baseHeaderOf c.header reqHeader
  let h1 := hSet h0 headerOperationState OperationState.succeeded.wire
  let h2 := if chGet c.header headerOperationID = "" ∧ c.operationID ≠ "" then
      hSet h1 headerOperationID c.operationID
    else h1
  let h3 := if chGet c.header headerOperationStartTime = "" ∧ c.startTime ≠ 0 then
      hSet h2 headerOperationStartTime (formatHTTPTime c.startTime)
    else h2
  let h4 := if chGet c.header headerLink = "" then
      addLinksToHTTPHeader c.startLinks h3
    else h3
  (h4, c.body)

/-- OperationCompletionUnsuccessful.applyToHTTPRequest (completion.go
lines 139-164): same header logic with the completion state written to the
operation-state header, the JSON content type forced, and the body the
JSON-encoded Failure (kept decoded in the model). -/
def applyToHTTPRequestUnsuccessful (c : OperationCompletionUnsuccessful)
    (reqHeader : Header) : Header × Option Failure :=
  let h0 := baseHeaderOf c.header reqHeader
  let h1 := hSet h0 headerOperationState c.state.wire
  let h1b := hSet h1 "Content-Type" contentTypeJSON
  let h2 := if chGet c.header headerOperationID = "" ∧ c.operationID ≠ "" then
      hSet h1b headerOperationID c.operationID
    else h1b
  let h3 := if chGet c.header headerOperationStartTime = "" ∧ c.startTime ≠ 0 then
      hSet h2 headerOperationStartTime (formatHTTPTime c.startTime)
    else h2
  let h4 := if chGet c.header headerLink = "" then
      addLinksToHTTPHeader c.startLinks h3
    else h3
  (h4, c.failure)

/-- Outcome of reading the Nexus-Operation-Start-Time header in the
completion handler: absent, present and parsed by http.ParseTime, or
present but malformed. -/
inductive StartTimeHeader where
  | absent
  | valid (t : Int)
  | malformed
deriving DecidableEq, Repr

/-- Outcome of io.ReadAll plus json.Unmarshal on the completion request
body (both Go standard library, modelled by outcome): a read error, or
bytes that decode to a Failure or fail to. -/
inductive BodyOutcome where
  | readErr
  | bytes (decoded : Option Failure)
deriving DecidableEq, Repr

/-- The parts of an inbound completion HTTP request that
completionHTTPHandler.ServeHTTP examines.  linksOk is the outcome of
getLinksFromHeader and ctIsJSON the verdict of isMediaTypeJSON (both not
under src/, modelled from the spec: an opaque link codec that may fail,
and a media-type test for JSON). -/
structure CompletionHttpRequest where
  opStateH : String
  opIdH : String
  startTimeH : StartTimeHeader
  linksOk : Bool
  links : List String
  ctIsJSON : Bool
  body : BodyOutcome
deriving DecidableEq, Repr

/-- The CompletionRequest handed to the user CompletionHandler
(completion.go lines 167-182), restricted to the fields the handler
receives from parsing. -/
structure CompletionParsed where
  state : String
  operationID : String
  startTime : Option Int
  startLinks : List String
  failure : Option Failure
  hasResult : Bool
deriving DecidableEq, Repr

/-- Modelled from the spec (sections 4.E and 7: these rejections are 400
bad request): HandlerErrorf(HandlerErrorTypeBadRequest, msg) is not under
src/; it renders through the same failure machinery as a handler error
with status 400 and the message as failure body. -/
def handlerErrorBadRequest (msg : String) : GoError :=
  .handlerError 400 (some { message := msg })

/-- The CompletionParsed built for a request that passed all checks. -/
def completionOf (req : CompletionHttpRequest) (failure : Option Failure)
    (hasResult : Bool) : CompletionParsed :=
  { state := req.opStateH
    operationID := req.opIdH
    startTime := match req.startTimeH with
      | .valid t => some t
      | _ => none
    startLinks := req.links
    failure := failure
    hasResult := hasResult }

/-- The validation stage of completionHTTPHandler.ServeHTTP (completion.go
lines 207-254): each early return of the source becomes an error response
here, and a request passing all checks yields the CompletionRequest that
will be handed to the user CompletionHandler. -/
def completionParse (req : CompletionHttpRequest) : Except HttpResp CompletionParsed :=
  match req.startTimeH with
  | .malformed =>
    .error (writeFailure (handlerErrorBadRequest "failed to parse operation start time header"))
  | _ =>
    if req.linksOk = false then
      .error (writeFailure (handlerErrorBadRequest "failed to decode links from request headers"))
    else if req.opStateH = OperationState.failed.wire ∨
        req.opStateH = OperationState.canceled.wire then
      if req.ctIsJSON = false then
        .error (writeFailure (handlerErrorBadRequest "invalid request content type"))
      else
        match req.body with
        | .readErr =>
          .error (writeFailure (handlerErrorBadRequest "failed to read Failure from request body"))
        | .bytes none =>
          .error (writeFailure (handlerErrorBadRequest "failed to read Failure from request body"))
        | .bytes (some f) => .ok (completionOf req (some f) false)
    else if req.opStateH = OperationState.succeeded.wire then
      .ok (completionOf req none true)
    else
      .error (writeFailure (handlerErrorBadRequest "invalid request operation state"))

/-- completionHTTPHandler.ServeHTTP (completion.go lines 207-258).
handlerErr is the result of the user CompleteOperation call; the second
component is the CompletionRequest passed to it, none when the handler was
never invoked.  A nil handler error writes nothing, which the HTTP server
reports as status 200. -/
def completionServeHTTP (req : CompletionHttpRequest)
    (handlerErr : Option GoError) : HttpResp × Option CompletionParsed :=
  match completionParse req with
  | .error resp => (resp, none)
  | .ok parsed =>
    (match handlerErr with
      | none => { status := 200 }
      | some e => writeFailure e,
     some parsed)

/-- Go strings on the URL path level are byte strings. -/
abbrev Bytes := List Nat

/-- net/url shouldEscape in encodePathSegment mode (Go standard library,
translated byte for byte): alphanumerics and - _ . ~ are kept, and of the
sub-delims group the characters dollar, ampersand, plus, colon, equals and
at-sign are kept while slash, semicolon, comma and question mark are
escaped; every other byte is escaped. -/
def shouldEscapePathSegment (c : Nat) : Bool :=
  if (65 ≤ c ∧ c ≤ 90) ∨ (97 ≤ c ∧ c ≤ 122) ∨ (48 ≤ c ∧ c ≤ 57) then false
  else if c = 45 ∨ c = 95 ∨ c = 46 ∨ c = 126 then false
  else if c = 36 ∨ c = 38 ∨ c = 43 ∨ c = 58 ∨ c = 61 ∨ c = 64 then false
  else true

/-- The uppercase hexadecimal digit byte for a nibble. -/
def upperHexDigit (n : Nat) : Nat := if n < 10 then 48 + n else 55 + n

/-- net/url PathEscape: escaped bytes become a percent sign followed by
two uppercase hex digits. -/
def escapePathSegment : Bytes → Bytes
  | [] => []
  | c :: rest =>
    (if shouldEscapePathSegment c then [37, upperHexDigit (c / 16), upperHexDigit (c % 16)]
     else [c]) ++ escapePathSegment rest

/-- Hex digit value of a byte, both cases accepted (net/url unhex). -/
def unhexByte (c : Nat) : Option Nat :=
  if 48 ≤ c ∧ c ≤ 57 then some (c - 48)
  else if 97 ≤ c ∧ c ≤ 102 then some (c - 87)
  else if 65 ≤ c ∧ c ≤ 70 then some (c - 55)
  else none

/-- net/url PathUnescape: decodes percent sequences, failing on a
malformed one; in path segment mode every other byte passes through. -/
def unescapePathSegment : Bytes → Option Bytes
  | [] => some []
  | c :: rest =>
    if c = 37 then
      match rest with
      | a :: b :: rest2 =>
        (unhexByte a).bind fun x =>
          (unhexByte b).bind fun y =>
            (unescapePathSegment rest2).map fun r => (16 * x + y) :: r
      | _ => none
    else (unescapePathSegment rest).map fun r => c :: r

/-- path.Split (Go standard library): split after the final slash; with no
slash the directory part is empty. -/
def pathSplit (p : Bytes) : Bytes × Bytes :=
  ((p.reverse.dropWhile (fun c => c ≠ 47)).reverse,
   (p.reverse.takeWhile (fun c => c ≠ 47)).reverse)

/-- path.Base (Go standard library): the empty path gives a dot, trailing
slashes are stripped, a path of only slashes gives a slash, otherwise the
element after the final slash. -/
def pathBase (p : Bytes) : Bytes :=
  if p = [] then [46]
  else
    let s := p.reverse.dropWhile (fun c => c = 47)
    if s = [] then [47]
    else (s.takeWhile (fun c => c ≠ 47)).reverse

/-- Split a byte string on slashes (every slash is a separator; n slashes
give n+1 pieces). -/
def splitOnSlash (p : Bytes) : List Bytes :=
  p.foldr
    (fun c acc =>
      if c = 47 then [] :: acc
      else
        match acc with
        | h :: t => (c :: h) :: t
        | [] => [[c]])
    [[]]

/-- The segment pass of path.Clean on a rooted path: empty and dot
segments are dropped, a dotdot segment pops the previous kept segment and
is dropped at the root. -/
def cleanSegs : List Bytes → List Bytes → List Bytes
  | stack, [] => stack.reverse
  | stack, s :: rest =>
    if s = [] ∨ s = [46] then cleanSegs stack rest
    else if s = [46, 46] then cleanSegs stack.tail rest
    else cleanSegs (s :: stack) rest

/-- Join segments with slashes. -/
def joinSegs : List Bytes → Bytes
  | [] => []
  | [s] => s
  | s :: rest => s ++ 47 :: joinSegs rest

/-- path.Clean (Go standard library) restricted to rooted inputs, the only
form produced below (the first Join element is a slash): duplicate slashes
and dot segments vanish, dotdot pops, dotdot at the root is dropped, the
result is rooted with no trailing slash, and a fully collapsed path is the
root itself. -/
def cleanRootedPath (p : Bytes) : Bytes :=
  let segs := cleanSegs [] (splitOnSlash p)
  if segs = [] then [47] else 47 :: joinSegs segs

/-- One step of the element concatenation inside path.Join: an empty
buffer takes the element as is (so leading empty elements vanish), a
nonempty buffer appends a slash and the element. -/
def goJoinStep (buf e : Bytes) : Bytes :=
  if buf = [] then e else buf ++ 47 :: e

/-- path.Join (Go standard library): concatenate the elements with
slashes, skipping leading empties, then Clean.  All uses below are rooted
because the first element is the base escaped path, a slash. -/
def goPathJoin (elems : List Bytes) : Bytes :=
  let buf := elems.foldl goJoinStep []
  if buf = [] then [] else cleanRootedPath buf

/-- The raw (escaped) URL path the client builds for GetInfo (handle.go
line 25): serviceBaseURL.JoinPath(PathEscape service, PathEscape
operation, PathEscape id).  net/url URL.JoinPath applies path.Join to the
base escaped path followed by the given (already escaped) elements; the
base path is taken as the root. -/
def clientInfoRawPath (svc op id : Bytes) : Bytes :=
  goPathJoin [[47], escapePathSegment svc, escapePathSegment op, escapePathSegment id]

/-- Strip a literal byte sequence from the front of a raw path; the server
is mounted under the base plus service portion of the URL (spec section 6:
the service segment is configured on the client and absent on the server,
which mounts at its chosen root). -/
def stripMount : Bytes → Bytes → Option Bytes
  | [], r => some r
  | _ :: _, [] => none
  | a :: p, b :: r => if a = b then stripMount p r else none

/-- httpHandler.getOperationInfo URL parsing (server.go lines 319-329):
path.Split on the raw encoded path, PathUnescape on the id, then
path.Base of the directory part and PathUnescape for the operation; an
unescape failure is a 400 (none here). -/
def getOperationInfoParse (raw : Bytes) : Option (Bytes × Bytes) :=
  (unescapePathSegment (pathSplit raw).2).bind fun id =>
    (unescapePathSegment (pathBase (pathSplit raw).1)).map fun op => (op, id)

/-- net/url shouldEscape in encodePath mode (the default encoding of
URL.Path, translated byte for byte): alphanumerics and - _ . ~ are kept,
and of the sub-delims group dollar, ampersand, plus, comma, slash, colon,
semicolon, equals and at-sign are kept, leaving only the question mark of
that group escaped; every other byte is escaped.  Unlike the segment mode,
slash, semicolon and comma stay literal here. -/
def shouldEscapeGoPath (c : Nat) : Bool :=
  if (65 ≤ c ∧ c ≤ 90) ∨ (97 ≤ c ∧ c ≤ 122) ∨ (48 ≤ c ∧ c ≤ 57) then false
  else if c = 45 ∨ c = 95 ∨ c = 46 ∨ c = 126 then false
  else if c = 36 ∨ c = 38 ∨ c = 43 ∨ c = 44 ∨ c = 47 ∨ c = 58 ∨ c = 59 ∨
      c = 61 ∨ c = 64 then false
  else true

/-- net/url escape in encodePath mode: the default re-encoding of a
decoded path, used by URL.setPath to decide whether RawPath is kept. -/
def escapeGoPath : Bytes → Bytes
  | [] => []
  | c :: rest =>
    (if shouldEscapeGoPath c then [37, upperHexDigit (c / 16), upperHexDigit (c % 16)]
     else [c]) ++ escapeGoPath rest

/-- The RawPath rule of net/url URL.setPath (run by the HTTP server when
it parses the request target): the wire path is decoded (unescaping in
encodePath mode fails only on malformed percent escapes, exactly as in
segment mode, so the same decoder applies); RawPath is left EMPTY when
the default re-encoding of the decoded path reproduces the wire form, and
keeps the wire form otherwise.  none models a URL parse failure; such a
request never reaches the handlers. -/
def setPathRawPath (wire : Bytes) : Option Bytes :=
  match unescapePathSegment wire with
  | none => none
  | some p => some (if escapeGoPath p = wire then [] else wire)

/-- The client to server trip for a GetInfo URL: build the raw client
path, strip the mount portion for the service (spec section 6: the
service prefix is client-side and the server mounts at its root), run the
net/url parse of the server-visible request target to obtain
request.URL.RawPath exactly as server.go line 319 reads it, and parse
operation and id the way getOperationInfo does. -/
def c8RoundTrip (svc op id : Bytes) : Option (Bytes × Bytes) :=
  match stripMount (47 :: escapePathSegment svc) (clientInfoRawPath svc op id) with
  | none => none
  | some wire =>
    match setPathRawPath wire with
    | none => none
    | some raw => getOperationInfoParse raw

/-- Claim C1 as stated: the GetOperationResult handler responds 408 iff
the wait parameter parsed to a positive duration, the derived context
expired, and the user Handler errored. -/
def claimC1Stated : Prop :=
  ∀ (wait : WaitQ) (hres : Except GoError Unit) (ctxErr : Bool),
    (getOperationResultServer wait hres ctxErr).status = 408 ↔
      ((∃ d, wait = WaitQ.dur d ∧ 0 < d) ∧ ctxErr = true ∧ ∃ e, hres = .error e)

/-- The request record built by one iteration of the loop. -/
def mkSentReq (env : PollEnv) (wait : Int) (step : PollStep) : SentReq :=
  { tBuild := step.tBuild
    waitEntry := wait
    query := if wait > 0 then some (clampWait env wait step.tBuild) else none }

/-- Claim C2 as stated: whenever the request of some iteration yields the
server wait-timeout outcome (HTTP 408) and the original options.Wait was
positive, the loop does not stop at that request (it issues another one
instead of returning). -/
def claimC2Stated : Prop :=
  ∀ (env : PollEnv) (steps : List PollStep) (i : Nat) (h : i < steps.length),
    0 < env.wait →
    sendGetOperationRequest (steps.get ⟨i, h⟩).reply = .error .waitTimeout →
    (runGetResult env steps).requests.length ≠ i + 1

/-- A path segment usable in the round trip: nonempty, not the dot or
dotdot segment, and made of bytes. -/
def goodSeg (s : Bytes) : Prop :=
  s ≠ [] ∧ s ≠ [46] ∧ s ≠ [46, 46] ∧ ∀ c ∈ s, c < 256

/-! ## Helper lemmas -/

/-- writeFailure only produces status 408 for a HandlerError that itself
carries status code 408. -/
theorem writeFailure_status_ne_408 (e : GoError)
    (hne : ∀ f, e ≠ .handlerError 408 f) : (writeFailure e).status ≠ 408 := by
  cases e with
  | unsuccessful s f =>
    by_cases h : s = .failed ∨ s = .canceled <;>
      simp [writeFailure, h, statusOperationFailed]
  | handlerError sc f =>
    simp only [writeFailure]
    intro h
    exact hne f (by rw [h])
  | transport => simp [writeFailure]
  | waitTimeout => simp [writeFailure]
  | stillRunning => simp [writeFailure]
  | generic m => simp [writeFailure]

/-! ## Claim C1 -/

/-- Claim C1, counterexample: a user Handler that returns a HandlerError
carrying status code 408 is rendered by writeFailure with that status even
with no wait parameter and no expired context, so the stated equivalence
fails. -/
theorem getOperationResult_408_claim_refuted : ¬ claimC1Stated := by
  intro h
  have hc := (h .absent (.error (.handlerError 408 none)) false).mp (by decide)
  exact absurd hc.2.1 (by decide)

/-- Claim C1, amended: provided the user error is not itself a
HandlerError carrying status code 408 (which the failure writer passes
through untouched), the GetOperationResult handler responds 408 iff the
wait query parameter parsed to a positive duration, the (derived) context
had expired when checked, and the user Handler returned an error; in
particular this check precedes the ErrOperationStillRunning mapping. -/
theorem getOperationResult_renders408_iff (wait : WaitQ)
    (hres : Except GoError Unit) (ctxErr : Bool)
    (hex : ∀ f, hres ≠ .error (.handlerError 408 f)) :
    (getOperationResultServer wait hres ctxErr).status = 408 ↔
      ((∃ d, wait = WaitQ.dur d ∧ 0 < d) ∧ ctxErr = true ∧ ∃ e, hres = .error e) := by
  cases wait with
  | malformed =>
    refine iff_of_false ?_ ?_
    · norm_num [getOperationResultServer, writeFailure]
    · rintro ⟨⟨d, hd, -⟩, -⟩
      exact absurd hd (by simp)
  | absent =>
    cases hres with
    | ok u =>
      refine iff_of_false ?_ ?_
      · norm_num [getOperationResultServer]
      · rintro ⟨-, -, e, he⟩
        exact absurd he (by simp)
    | error e =>
      refine iff_of_false ?_ ?_
      · simp only [getOperationResultServer]
        split_ifs with h h2
        · exact absurd h.1 (by simp [WaitQ.handlerWait])
        · norm_num [statusOperationRunning]
        · exact writeFailure_status_ne_408 e (fun f hf => hex f (by rw [hf]))
      · rintro ⟨⟨d, hd, -⟩, -⟩
        exact absurd hd (by simp)
  | dur d =>
    cases hres with
    | ok u =>
      refine iff_of_false ?_ ?_
      · norm_num [getOperationResultServer]
      · rintro ⟨-, -, e, he⟩
        exact absurd he (by simp)
    | error e =>
      constructor
      · intro hst
        simp only [getOperationResultServer] at hst
        split_ifs at hst with h h2
        · exact ⟨⟨d, rfl, by simpa [WaitQ.handlerWait] using h.1⟩, h.2, e, rfl⟩
        · exact absurd hst (by norm_num [statusOperationRunning])
        · exact absurd hst (writeFailure_status_ne_408 e (fun f hf => hex f (by rw [hf])))
      · rintro ⟨⟨d2, hd2, hpos⟩, hctx, -⟩
        cases hd2
        simp only [getOperationResultServer]
        split_ifs with h h2
        · rfl
        · exact absurd ⟨by simpa [WaitQ.handlerWait] using hpos, hctx⟩ h
        · exact absurd ⟨by simpa [WaitQ.handlerWait] using hpos, hctx⟩ h

/-- Claim C1 amended, witness: a positive wait, an expired derived context
and a Handler error (here ErrOperationStillRunning) render 408 — and in
particular the 408 takes precedence over the reserved running status. -/
theorem getOperationResult_renders408_iff_witness :
    (getOperationResultServer (.dur 5) (.error .stillRunning) true).status = 408 :=
  (getOperationResult_renders408_iff (.dur 5) (.error .stillRunning) true
      (fun f h => by simp at h)).mpr
    ⟨⟨5, rfl, by decide⟩, rfl, .stillRunning, rfl⟩

/-! ## Claim C5 -/

/-- Claim C5: the failure writer dispatches on the error tag.  An
UnsuccessfulOperationError (state failed or canceled, per the data model)
renders the reserved operation-failed status with the operation-state
header and a JSON Failure body; a HandlerError renders its own status code
with its optional JSON Failure body (content type set exactly when a body
is present); any other error renders 500 with failure message exactly
"internal server error", independent of the original message. -/
theorem writeFailure_tagged_dispatch :
    (∀ f : Failure, writeFailure (.unsuccessful .failed f) =
      { status := statusOperationFailed, opState := some .failed, ctJSON := true,
        body := some f }) ∧
    (∀ f : Failure, writeFailure (.unsuccessful .canceled f) =
      { status := statusOperationFailed, opState := some .canceled, ctJSON := true,
        body := some f }) ∧
    (∀ (sc : Int) (f : Option Failure), writeFailure (.handlerError sc f) =
      { status := sc, opState := none, ctJSON := f.isSome, body := f }) ∧
    (∀ msg : String, writeFailure (.generic msg) =
      { status := 500, opState := none, ctJSON := true,
        body := some { message := "internal server error" } }) :=
  ⟨fun _ => rfl, fun _ => rfl, fun _ _ => rfl, fun _ => rfl⟩

/-! ## Claim C6 -/

/-- Claim C6: on the 200 GetResult path, when T is LazyValue the client
returns the constructed LazyValue with the response body unread (stream
intact, not closed); for any other T it calls Consume, which drains and
closes the stream and yields the deserialized value together with any
deserialization error. -/
theorem getResult_routing_by_T (ser : List Nat → Except String (List Nat))
    (respBody : List Nat) (respHeader : List (String × String)) :
    getResultOn200 .lazyValue ser respBody respHeader =
      (.lazy (mkLazyValue ser respBody respHeader), mkLazyValue ser respBody respHeader) ∧
    (mkLazyValue ser respBody respHeader).reader.stream = respBody ∧
    (mkLazyValue ser respBody respHeader).closed = false ∧
    getResultOn200 .typed ser respBody respHeader =
      (.val (ser respBody),
       { serializer := ser
         reader := { stream := [],
                     header := prefixStrippedHTTPHeaderToNexusHeader respHeader }
         closed := true }) :=
  ⟨rfl, rfl, rfl, rfl⟩

/-! ## Long-poll loop unfolding lemmas -/

theorem getResultLoop_cons (env : PollEnv) (wait : Int) (step : PollStep)
    (rest : List PollStep) :
    getResultLoop env wait (step :: rest) =
      match sendGetOperationRequest step.reply with
      | .ok _ => { requests := [mkSentReq env wait step], outcome := .ok }
      | .error e =>
        if clampWait env wait step.tBuild > 0 ∧ e = .waitTimeout then
          { requests := mkSentReq env wait step ::
              (getResultLoop env (env.wait - (step.tAfter - env.startTime)) rest).requests
            outcome := (getResultLoop env (env.wait - (step.tAfter - env.startTime)) rest).outcome }
        else { requests := [mkSentReq env wait step], outcome := .err e } := by
  simp only [getResultLoop, mkSentReq]

theorem getResultLoop_cons_ok (env : PollEnv) (wait : Int) (step : PollStep)
    (rest : List PollStep) (u : Unit)
    (h : sendGetOperationRequest step.reply = .ok u) :
    getResultLoop env wait (step :: rest) =
      { requests := [mkSentReq env wait step], outcome := .ok } := by
  rw [getResultLoop_cons, h]

theorem getResultLoop_cons_retry (env : PollEnv) (wait : Int) (step : PollStep)
    (rest : List PollStep)
    (h : sendGetOperationRequest step.reply = .error .waitTimeout)
    (hc : clampWait env wait step.tBuild > 0) :
    getResultLoop env wait (step :: rest) =
      { requests := mkSentReq env wait step ::
          (getResultLoop env (env.wait - (step.tAfter - env.startTime)) rest).requests
        outcome := (getResultLoop env (env.wait - (step.tAfter - env.startTime)) rest).outcome } := by
  simp only [getResultLoop_cons, h]
  rw [if_pos ⟨hc, trivial⟩]

theorem getResultLoop_cons_stop (env : PollEnv) (wait : Int) (step : PollStep)
    (rest : List PollStep) (e : GoError)
    (h : sendGetOperationRequest step.reply = .error e)
    (hc : ¬(clampWait env wait step.tBuild > 0 ∧ e = .waitTimeout)) :
    getResultLoop env wait (step :: rest) =
      { requests := [mkSentReq env wait step], outcome := .err e } := by
  simp only [getResultLoop_cons, h]
  rw [if_neg hc]

/-- When the deadline is absent the clamp leaves the wait untouched. -/
theorem clampWait_no_deadline (env : PollEnv) (w t : Int) (h : env.deadline = none) :
    clampWait env w t = w := by
  simp only [clampWait, h]
  split_ifs <;> rfl

/-! ## Claim C9 -/

/-- Claim C9: in every loop iteration whose entry wait value is not
positive, the outbound request carries no wait query parameter (RawQuery
is reset), whatever the query carried on earlier iterations of the reused
request object. -/
theorem getResult_no_wait_query (env : PollEnv) (wait : Int) (steps : List PollStep) :
    ∀ r ∈ (getResultLoop env wait steps).requests, r.waitEntry ≤ 0 → r.query = none := by
  induction steps generalizing wait with
  | nil =>
    intro r hr
    simp [getResultLoop] at hr
  | cons step rest ih =>
    intro r hr hle
    have hq : ∀ hrr : r = mkSentReq env wait step, r.query = none := by
      intro hrr
      have hw : ¬ wait > 0 := by
        have := hle
        rw [hrr] at this
        simpa [mkSentReq] using this
      rw [hrr]
      simp [mkSentReq, hw]
    rw [getResultLoop_cons] at hr
    cases hsend : sendGetOperationRequest step.reply with
    | ok u =>
      simp only [hsend, List.mem_singleton] at hr
      exact hq hr
    | error e =>
      simp only [hsend] at hr
      by_cases hc : clampWait env wait step.tBuild > 0 ∧ e = .waitTimeout
      · rw [if_pos hc] at hr
        simp only [List.mem_cons] at hr
        rcases hr with hr | hr
        · exact hq hr
        · exact ih _ r hr hle
      · rw [if_neg hc] at hr
        simp only [List.mem_singleton] at hr
        exact hq hr

/-- Claim C9, witness: a GetResult call with options.Wait = 0 sends its
request with an empty query. -/
theorem getResult_no_wait_query_witness :
    (⟨5, 0, none⟩ : SentReq) ∈
      (getResultLoop ⟨0, none, 0⟩ 0 [⟨5, .http 200 none none, 6⟩]).requests ∧
    (⟨5, 0, none⟩ : SentReq).query = none :=
  ⟨by decide,
   getResult_no_wait_query ⟨0, none, 0⟩ 0 [⟨5, .http 200 none none, 6⟩]
     ⟨5, 0, none⟩ (by decide) (by decide)⟩

/-! ## Claim C2 -/

/-- Claim C2, counterexample: with options.Wait = 100ns and a first 408
arriving after 200ns, the recomputed wait is negative, so the second
request carries no wait parameter; when that request also yields 408 the
loop returns the errOperationWaitTimeout sentinel instead of issuing a
third request, even though options.Wait was positive.  The retry guard of
the source tests the current remaining wait, not options.Wait. -/
theorem getResult_retry_claim_refuted : ¬ claimC2Stated := by
  intro h
  exact h ⟨100, none, 0⟩
    [⟨0, .http 408 none none, 200⟩, ⟨300, .http 408 none none, 400⟩] 1
    (by decide) (by decide) rfl (by decide)

/-- Claim C2, amended: whenever a request yields the wait-timeout outcome
(HTTP 408) and the remaining wait for that iteration, after deadline
clamping, is still positive, the client recomputes the remaining wait as
options.Wait minus the time elapsed since the loop started and issues
another request instead of returning (the loop continues into the rest of
the trace). -/
theorem getResult_retry_recomputes (env : PollEnv) (wait : Int) (step : PollStep)
    (rest : List PollStep)
    (h408 : sendGetOperationRequest step.reply = .error .waitTimeout)
    (hpos : 0 < clampWait env wait step.tBuild) :
    (getResultLoop env wait (step :: rest)).requests =
      mkSentReq env wait step ::
        (getResultLoop env (env.wait - (step.tAfter - env.startTime)) rest).requests ∧
    (getResultLoop env wait (step :: rest)).outcome =
      (getResultLoop env (env.wait - (step.tAfter - env.startTime)) rest).outcome := by
  rw [getResultLoop_cons_retry env wait step rest h408 hpos]
  exact ⟨rfl, rfl⟩

/-- Claim C2 amended, witness: a 408 at 30ns into a 100ns wait leads to a
second request with the recomputed wait 100 - 30. -/
theorem getResult_retry_recomputes_witness :
    (getResultLoop ⟨100, none, 0⟩ 100
        [⟨0, .http 408 none none, 30⟩, ⟨40, .http 200 none none, 50⟩]).requests =
      mkSentReq ⟨100, none, 0⟩ 100 ⟨0, .http 408 none none, 30⟩ ::
        (getResultLoop ⟨100, none, 0⟩ (100 - (30 - 0))
          [⟨40, .http 200 none none, 50⟩]).requests ∧
    (getResultLoop ⟨100, none, 0⟩ 100
        [⟨0, .http 408 none none, 30⟩, ⟨40, .http 200 none none, 50⟩]).outcome =
      (getResultLoop ⟨100, none, 0⟩ (100 - (30 - 0))
          [⟨40, .http 200 none none, 50⟩]).outcome :=
  getResult_retry_recomputes ⟨100, none, 0⟩ 100 ⟨0, .http 408 none none, 30⟩
    [⟨40, .http 200 none none, 50⟩] rfl (by decide)

/-! ## Claim C3 -/

/-- Bound invariant of the loop: starting from any remaining wait not
above options.Wait, every wait value placed in a query is at most
options.Wait and at most the time to the deadline plus the padding. -/
theorem getResult_wait_bounds_aux (env : PollEnv) (D : Int)
    (hD : env.deadline = some D) :
    ∀ (steps : List PollStep), (∀ s ∈ steps, env.startTime ≤ s.tAfter) →
      ∀ wait : Int, wait ≤ env.wait →
        ∀ r ∈ (getResultLoop env wait steps).requests, ∀ w, r.query = some w →
          w ≤ env.wait ∧ w ≤ D - r.tBuild + getResultContextPadding := by
  intro steps
  induction steps with
  | nil =>
    intro _ wait hw r hr
    simp [getResultLoop] at hr
  | cons step rest ih =>
    intro hmono wait hw r hr w hq
    have hmonoHead : env.startTime ≤ step.tAfter := hmono step (List.mem_cons_self _ _)
    have hmonoTail : ∀ s ∈ rest, env.startTime ≤ s.tAfter :=
      fun s hs => hmono s (List.mem_cons_of_mem _ hs)
    have hreq : r = mkSentReq env wait step →
        w ≤ env.wait ∧ w ≤ D - r.tBuild + getResultContextPadding := by
      intro hrr
      subst hrr
      simp only [mkSentReq] at hq ⊢
      by_cases hwp : wait > 0
      · rw [if_pos hwp] at hq
        have hw2 : w = clampWait env wait step.tBuild := (Option.some_inj.mp hq).symm
        have hcl : clampWait env wait step.tBuild =
            min wait (D - step.tBuild + getResultContextPadding) := by
          simp [clampWait, hD, hwp]
        rw [hw2, hcl]
        exact ⟨le_trans (min_le_left _ _) hw, min_le_right _ _⟩
      · rw [if_neg hwp] at hq
        exact absurd hq (by simp)
    rw [getResultLoop_cons] at hr
    cases hsend : sendGetOperationRequest step.reply with
    | ok u =>
      simp only [hsend, List.mem_singleton] at hr
      exact hreq hr
    | error e =>
      simp only [hsend] at hr
      by_cases hc : clampWait env wait step.tBuild > 0 ∧ e = .waitTimeout
      · rw [if_pos hc] at hr
        simp only [List.mem_cons] at hr
        rcases hr with hr | hr
        · exact hreq hr
        · exact ih hmonoTail (env.wait - (step.tAfter - env.startTime)) (by omega) r hr w hq
      · rw [if_neg hc] at hr
        simp only [List.mem_singleton] at hr
        exact hreq hr

/-- Claim C3: given a context deadline D and caller wait W = options.Wait,
every outbound request of the loop that carries a wait parameter carries a
value w with w at most W and w at most (D minus the clock at query
construction) plus the 5 second padding constant.  Clock values after the
loop start are not earlier than startTime. -/
theorem getResult_sent_wait_bounded (env : PollEnv) (D : Int)
    (steps : List PollStep) (hD : env.deadline = some D)
    (hmono : ∀ s ∈ steps, env.startTime ≤ s.tAfter) :
    ∀ r ∈ (runGetResult env steps).requests, ∀ w, r.query = some w →
      w ≤ env.wait ∧ w ≤ D - r.tBuild + getResultContextPadding :=
  getResult_wait_bounds_aux env D hD steps hmono env.wait (le_refl _)

/-- Claim C3, witness: with wait 1000 and deadline 5000 the single request
carries wait 1000, within both bounds. -/
theorem getResult_sent_wait_bounded_witness :
    (1000 : Int) ≤ 1000 ∧ (1000 : Int) ≤ 5000 - 0 + getResultContextPadding :=
  getResult_sent_wait_bounded ⟨1000, some 5000, 0⟩ 5000
    [⟨0, .http 200 none none, 10⟩] rfl (by decide)
    ⟨0, 1000, some 1000⟩ (by decide) 1000 rfl

/-! ## Claim C4 -/

/-- Claim C4: when a GetResult call with positive options.Wait receives a
408 and the recomputed remaining wait is not positive, the loop issues one
final request without a wait parameter; against a server whose handler
still reports the operation running, that request yields the reserved
running status and the call returns ErrOperationStillRunning to the
caller. -/
theorem getResult_exhausted_surfaces_stillRunning (W t1 t2 t3 t4 : Int)
    (ctxErr : Bool) (hW : 0 < W) (hdone : W - t2 ≤ 0) :
    runGetResult ⟨W, none, 0⟩
        [⟨t1, .http 408 none none, t2⟩,
         ⟨t3, replyOfResp (getOperationResultServer .absent (.error .stillRunning) ctxErr), t4⟩] =
      { requests := [⟨t1, W, some W⟩, ⟨t3, W - (t2 - 0), none⟩],
        outcome := .err .stillRunning } := by
  have hsrv : getOperationResultServer .absent (.error .stillRunning) ctxErr =
      { status := statusOperationRunning } := by
    simp only [getOperationResultServer]
    rw [if_neg (by simp [WaitQ.handlerWait])]
    simp
  have hneg : ¬(W - (t2 - 0) > 0) := by omega
  simp [runGetResult, getResultLoop, clampWait, sendGetOperationRequest, hsrv, replyOfResp,
    statusOperationRunning, statusOperationFailed, hW, hneg, mkSentReq]
  omega

/-- Claim C4, witness: wait 100, 408 arriving at 200, then a still-running
server: the call ends with ErrOperationStillRunning and the second request
has no wait parameter. -/
theorem getResult_exhausted_surfaces_stillRunning_witness :
    runGetResult ⟨100, none, 0⟩
        [⟨0, .http 408 none none, 200⟩,
         ⟨250, replyOfResp (getOperationResultServer .absent (.error .stillRunning) false), 260⟩] =
      { requests := [⟨0, 100, some 100⟩, ⟨250, 100 - (200 - 0), none⟩],
        outcome := .err .stillRunning } :=
  getResult_exhausted_surfaces_stillRunning 100 0 200 250 260 false
    (by decide) (by decide)

/-! ## Claim C7 -/

/-- When the validation stage rejects with a bad-request error, ServeHTTP
responds with status 400 and the CompletionHandler is never invoked. -/
theorem completionServeHTTP_badRequest (req : CompletionHttpRequest)
    (handlerErr : Option GoError) (msg : String)
    (hp : completionParse req = .error (writeFailure (handlerErrorBadRequest msg))) :
    (completionServeHTTP req handlerErr).1.status = 400 ∧
      (completionServeHTTP req handlerErr).2 = none := by
  simp [completionServeHTTP, hp, writeFailure, handlerErrorBadRequest]

/-- Claim C7: the completion HTTP handler rejects with 400 any request
whose operation-state header is not exactly succeeded, failed or canceled;
and for states failed and canceled it also rejects with 400 any request
whose content type is not JSON or whose body does not decode to a Failure.
In every such case the user CompletionHandler is never invoked (the parsed
completion component is none). -/
theorem completion_rejects_bad_requests (req : CompletionHttpRequest)
    (handlerErr : Option GoError) :
    (req.opStateH ≠ "succeeded" → req.opStateH ≠ "failed" → req.opStateH ≠ "canceled" →
      (completionServeHTTP req handlerErr).1.status = 400 ∧
        (completionServeHTTP req handlerErr).2 = none) ∧
    ((req.opStateH = "failed" ∨ req.opStateH = "canceled") → req.ctIsJSON = false →
      (completionServeHTTP req handlerErr).1.status = 400 ∧
        (completionServeHTTP req handlerErr).2 = none) ∧
    ((req.opStateH = "failed" ∨ req.opStateH = "canceled") →
      (req.body = .readErr ∨ req.body = .bytes none) →
      (completionServeHTTP req handlerErr).1.status = 400 ∧
        (completionServeHTTP req handlerErr).2 = none) := by
  refine ⟨?_, ?_, ?_⟩
  · intro h1 h2 h3
    cases hst : req.startTimeH with
    | malformed =>
      exact completionServeHTTP_badRequest req handlerErr
          "failed to parse operation start time header" (by simp [completionParse, hst])
    | absent =>
      by_cases hl : req.linksOk = false
      · exact completionServeHTTP_badRequest req handlerErr
          "failed to decode links from request headers" (by simp [completionParse, hst, hl])
      · refine completionServeHTTP_badRequest req handlerErr
          "invalid request operation state" ?_
        simp [completionParse, hst, hl, OperationState.wire, h1, h2, h3]
    | valid t =>
      by_cases hl : req.linksOk = false
      · exact completionServeHTTP_badRequest req handlerErr
          "failed to decode links from request headers" (by simp [completionParse, hst, hl])
      · refine completionServeHTTP_badRequest req handlerErr
          "invalid request operation state" ?_
        simp [completionParse, hst, hl, OperationState.wire, h1, h2, h3]
  · intro hs hct
    cases hst : req.startTimeH with
    | malformed =>
      exact completionServeHTTP_badRequest req handlerErr
          "failed to parse operation start time header" (by simp [completionParse, hst])
    | absent =>
      by_cases hl : req.linksOk = false
      · exact completionServeHTTP_badRequest req handlerErr
          "failed to decode links from request headers" (by simp [completionParse, hst, hl])
      · refine completionServeHTTP_badRequest req handlerErr "invalid request content type" ?_
        simp [completionParse, hst, hl, OperationState.wire, hs, hct]
    | valid t =>
      by_cases hl : req.linksOk = false
      · exact completionServeHTTP_badRequest req handlerErr
          "failed to decode links from request headers" (by simp [completionParse, hst, hl])
      · refine completionServeHTTP_badRequest req handlerErr "invalid request content type" ?_
        simp [completionParse, hst, hl, OperationState.wire, hs, hct]
  · intro hs hb
    cases hst : req.startTimeH with
    | malformed =>
      exact completionServeHTTP_badRequest req handlerErr
          "failed to parse operation start time header" (by simp [completionParse, hst])
    | absent =>
      by_cases hl : req.linksOk = false
      · exact completionServeHTTP_badRequest req handlerErr
          "failed to decode links from request headers" (by simp [completionParse, hst, hl])
      · by_cases hct : req.ctIsJSON = false
        · refine completionServeHTTP_badRequest req handlerErr "invalid request content type" ?_
          simp [completionParse, hst, hl, OperationState.wire, hs, hct]
        · refine completionServeHTTP_badRequest req handlerErr
            "failed to read Failure from request body" ?_
          rcases hb with hb | hb <;>
            simp [completionParse, hst, hl, OperationState.wire, hs, hct, hb]
    | valid t =>
      by_cases hl : req.linksOk = false
      · exact completionServeHTTP_badRequest req handlerErr
          "failed to decode links from request headers" (by simp [completionParse, hst, hl])
      · by_cases hct : req.ctIsJSON = false
        · refine completionServeHTTP_badRequest req handlerErr "invalid request content type" ?_
          simp [completionParse, hst, hl, OperationState.wire, hs, hct]
        · refine completionServeHTTP_badRequest req handlerErr
            "failed to read Failure from request body" ?_
          rcases hb with hb | hb <;>
            simp [completionParse, hst, hl, OperationState.wire, hs, hct, hb]

/-- Claim C7, witness: a completion request with operation-state header
"started" is rejected with 400 and the CompletionHandler is not invoked. -/
theorem completion_rejects_bad_requests_witness :
    (completionServeHTTP
        { opStateH := "started", opIdH := "op-1", startTimeH := .absent,
          linksOk := true, links := [], ctIsJSON := true,
          body := .bytes none }
        none).1.status = 400 ∧
    (completionServeHTTP
        { opStateH := "started", opIdH := "op-1", startTimeH := .absent,
          linksOk := true, links := [], ctIsJSON := true,
          body := .bytes none }
        none).2 = none :=
  (completion_rejects_bad_requests
      { opStateH := "started", opIdH := "op-1", startTimeH := .absent,
        linksOk := true, links := [], ctIsJSON := true, body := .bytes none }
      none).1 (by decide) (by decide) (by decide)

/-! ## Header map lemmas -/

theorem hGet_hSet_same (h : Header) (k v : String) : hGet (hSet h k v) k = v := by
  simp [hGet, hSet]

theorem hSet_apply_ne (h : Header) (k v q : String) (hne : q ≠ k) :
    hSet h k v q = h q := by
  simp [hSet, hne]

theorem hGet_hSet_ne (h : Header) (k v q : String) (hne : q ≠ k) :
    hGet (hSet h k v) q = hGet h q := by
  simp [hGet, hSet, hne]

theorem hAdd_apply_ne (h : Header) (k v q : String) (hne : q ≠ k) :
    hAdd h k v q = h q := by
  simp [hAdd, hne]

theorem addLinks_apply_ne (links : List String) (h : Header) (q : String)
    (hne : q ≠ headerLink) : addLinksToHTTPHeader links h q = h q := by
  induction links generalizing h with
  | nil => rfl
  | cons l ls ih =>
    show addLinksToHTTPHeader ls (hAdd h headerLink l) q = h q
    rw [ih (hAdd h headerLink l)]
    exact hAdd_apply_ne h headerLink l q hne

theorem addLinks_at_link (links : List String) (h : Header) :
    addLinksToHTTPHeader links h headerLink = h headerLink ++ links := by
  induction links generalizing h with
  | nil => simp [addLinksToHTTPHeader]
  | cons l ls ih =>
    show addLinksToHTTPHeader ls (hAdd h headerLink l) headerLink =
      h headerLink ++ (l :: ls)
    rw [ih (hAdd h headerLink l)]
    simp [hAdd]

theorem hGet_ite_hSet (c : Prop) [Decidable c] (h : Header) (k v q : String)
    (hne : q ≠ k) : hGet (if c then hSet h k v else h) q = hGet h q := by
  split_ifs with hc
  · exact hGet_hSet_ne h k v q hne
  · rfl

theorem ite_hSet_apply (c : Prop) [Decidable c] (h : Header) (k v q : String)
    (hne : q ≠ k) : (if c then hSet h k v else h) q = h q := by
  split_ifs with hc
  · exact hSet_apply_ne h k v q hne
  · rfl

theorem hGet_ite_addLinks (c : Prop) [Decidable c] (links : List String)
    (h : Header) (q : String) (hne : q ≠ headerLink) :
    hGet (if c then addLinksToHTTPHeader links h else h) q = hGet h q := by
  split_ifs with hc
  · simp only [hGet]
    rw [addLinks_apply_ne links h q hne]
  · rfl

/-! ## Claim C10 helper lemmas -/

theorem applySucc_state (c : OperationCompletionSuccessful) (reqH : Header) :
    hGet (applyToHTTPRequestSuccessful c reqH).1 headerOperationState = "succeeded" := by
  simp only [applyToHTTPRequestSuccessful]
  rw [hGet_ite_addLinks _ _ _ _ (by decide)]
  rw [hGet_ite_hSet _ _ _ _ _ (by decide)]
  rw [hGet_ite_hSet _ _ _ _ _ (by decide)]
  exact hGet_hSet_same _ _ _

theorem applySucc_opId_kept (c : OperationCompletionSuccessful) (reqH : Header)
    (hne : chGet c.header headerOperationID ≠ "") :
    hGet (applyToHTTPRequestSuccessful c reqH).1 headerOperationID =
      chGet c.header headerOperationID := by
  rcases hh : c.header with _ | ch
  · rw [hh] at hne
    exact absurd rfl hne
  · have hne2 : chGet (some ch) headerOperationID ≠ "" := by
      rw [hh] at hne
      exact hne
    simp only [applyToHTTPRequestSuccessful, hh]
    rw [hGet_ite_addLinks _ _ _ _ (by decide)]
    rw [hGet_ite_hSet _ _ _ _ _ (by decide)]
    rw [if_neg (fun hcon => hne2 hcon.1)]
    rw [hGet_hSet_ne _ _ _ _ (by decide)]
    rfl

theorem applySucc_opId_populated (c : OperationCompletionSuccessful) (reqH : Header)
    (hempty : chGet c.header headerOperationID = "") (hid : c.operationID ≠ "") :
    hGet (applyToHTTPRequestSuccessful c reqH).1 headerOperationID = c.operationID := by
  simp only [applyToHTTPRequestSuccessful]
  rw [hGet_ite_addLinks _ _ _ _ (by decide)]
  rw [hGet_ite_hSet _ _ _ _ _ (by decide)]
  rw [if_pos ⟨hempty, hid⟩]
  exact hGet_hSet_same _ _ _

theorem applySucc_startTime_kept (c : OperationCompletionSuccessful) (reqH : Header)
    (hne : chGet c.header headerOperationStartTime ≠ "") :
    hGet (applyToHTTPRequestSuccessful c reqH).1 headerOperationStartTime =
      chGet c.header headerOperationStartTime := by
  rcases hh : c.header with _ | ch
  · rw [hh] at hne
    exact absurd rfl hne
  · have hne2 : chGet (some ch) headerOperationStartTime ≠ "" := by
      rw [hh] at hne
      exact hne
    simp only [applyToHTTPRequestSuccessful, hh]
    rw [hGet_ite_addLinks _ _ _ _ (by decide)]
    rw [if_neg (fun hcon => hne2 hcon.1)]
    rw [hGet_ite_hSet _ _ _ _ _ (by decide)]
    rw [hGet_hSet_ne _ _ _ _ (by decide)]
    rfl

theorem applySucc_startTime_populated (c : OperationCompletionSuccessful) (reqH : Header)
    (hempty : chGet c.header headerOperationStartTime = "") (ht : c.startTime ≠ 0) :
    hGet (applyToHTTPRequestSuccessful c reqH).1 headerOperationStartTime =
      formatHTTPTime c.startTime := by
  simp only [applyToHTTPRequestSuccessful]
  rw [hGet_ite_addLinks _ _ _ _ (by decide)]
  rw [if_pos ⟨hempty, ht⟩]
  exact hGet_hSet_same _ _ _

theorem applySucc_links_kept (c : OperationCompletionSuccessful) (reqH : Header)
    (hne : chGet c.header headerLink ≠ "") :
    (applyToHTTPRequestSuccessful c reqH).1 headerLink =
      baseHeaderOf c.header reqH headerLink := by
  simp only [applyToHTTPRequestSuccessful]
  rw [if_neg hne]
  rw [ite_hSet_apply _ _ _ _ _ (by decide)]
  rw [ite_hSet_apply _ _ _ _ _ (by decide)]
  rw [hSet_apply_ne _ _ _ _ (by decide)]

theorem applySucc_links_encoded (c : OperationCompletionSuccessful) (reqH : Header)
    (hempty : chGet c.header headerLink = "") :
    (applyToHTTPRequestSuccessful c reqH).1 headerLink =
      baseHeaderOf c.header reqH headerLink ++ c.startLinks := by
  simp only [applyToHTTPRequestSuccessful]
  rw [if_pos hempty]
  rw [addLinks_at_link]
  congr 1
  rw [ite_hSet_apply _ _ _ _ _ (by decide)]
  rw [ite_hSet_apply _ _ _ _ _ (by decide)]
  rw [hSet_apply_ne _ _ _ _ (by decide)]

theorem applyUnsucc_state (c : OperationCompletionUnsuccessful) (reqH : Header) :
    hGet (applyToHTTPRequestUnsuccessful c reqH).1 headerOperationState = c.state.wire := by
  simp only [applyToHTTPRequestUnsuccessful]
  rw [hGet_ite_addLinks _ _ _ _ (by decide)]
  rw [hGet_ite_hSet _ _ _ _ _ (by decide)]
  rw [hGet_ite_hSet _ _ _ _ _ (by decide)]
  rw [hGet_hSet_ne _ _ _ _ (by decide)]
  exact hGet_hSet_same _ _ _

theorem applyUnsucc_opId_kept (c : OperationCompletionUnsuccessful) (reqH : Header)
    (hne : chGet c.header headerOperationID ≠ "") :
    hGet (applyToHTTPRequestUnsuccessful c reqH).1 headerOperationID =
      chGet c.header headerOperationID := by
  rcases hh : c.header with _ | ch
  · rw [hh] at hne
    exact absurd rfl hne
  · have hne2 : chGet (some ch) headerOperationID ≠ "" := by
      rw [hh] at hne
      exact hne
    simp only [applyToHTTPRequestUnsuccessful, hh]
    rw [hGet_ite_addLinks _ _ _ _ (by decide)]
    rw [hGet_ite_hSet _ _ _ _ _ (by decide)]
    rw [if_neg (fun hcon => hne2 hcon.1)]
    rw [hGet_hSet_ne _ _ _ _ (by decide)]
    rw [hGet_hSet_ne _ _ _ _ (by decide)]
    rfl

theorem applyUnsucc_opId_populated (c : OperationCompletionUnsuccessful) (reqH : Header)
    (hempty : chGet c.header headerOperationID = "") (hid : c.operationID ≠ "") :
    hGet (applyToHTTPRequestUnsuccessful c reqH).1 headerOperationID = c.operationID := by
  simp only [applyToHTTPRequestUnsuccessful]
  rw [hGet_ite_addLinks _ _ _ _ (by decide)]
  rw [hGet_ite_hSet _ _ _ _ _ (by decide)]
  rw [if_pos ⟨hempty, hid⟩]
  exact hGet_hSet_same _ _ _

theorem applyUnsucc_startTime_kept (c : OperationCompletionUnsuccessful) (reqH : Header)
    (hne : chGet c.header headerOperationStartTime ≠ "") :
    hGet (applyToHTTPRequestUnsuccessful c reqH).1 headerOperationStartTime =
      chGet c.header headerOperationStartTime := by
  rcases hh : c.header with _ | ch
  · rw [hh] at hne
    exact absurd rfl hne
  · have hne2 : chGet (some ch) headerOperationStartTime ≠ "" := by
      rw [hh] at hne
      exact hne
    simp only [applyToHTTPRequestUnsuccessful, hh]
    rw [hGet_ite_addLinks _ _ _ _ (by decide)]
    rw [if_neg (fun hcon => hne2 hcon.1)]
    rw [hGet_ite_hSet _ _ _ _ _ (by decide)]
    rw [hGet_hSet_ne _ _ _ _ (by decide)]
    rw [hGet_hSet_ne _ _ _ _ (by decide)]
    rfl

theorem applyUnsucc_startTime_populated (c : OperationCompletionUnsuccessful)
    (reqH : Header) (hempty : chGet c.header headerOperationStartTime = "")
    (ht : c.startTime ≠ 0) :
    hGet (applyToHTTPRequestUnsuccessful c reqH).1 headerOperationStartTime =
      formatHTTPTime c.startTime := by
  simp only [applyToHTTPRequestUnsuccessful]
  rw [hGet_ite_addLinks _ _ _ _ (by decide)]
  rw [if_pos ⟨hempty, ht⟩]
  exact hGet_hSet_same _ _ _

theorem applyUnsucc_links_kept (c : OperationCompletionUnsuccessful) (reqH : Header)
    (hne : chGet c.header headerLink ≠ "") :
    (applyToHTTPRequestUnsuccessful c reqH).1 headerLink =
      baseHeaderOf c.header reqH headerLink := by
  simp only [applyToHTTPRequestUnsuccessful]
  rw [if_neg hne]
  rw [ite_hSet_apply _ _ _ _ _ (by decide)]
  rw [ite_hSet_apply _ _ _ _ _ (by decide)]
  rw [hSet_apply_ne _ _ _ _ (by decide)]
  rw [hSet_apply_ne _ _ _ _ (by decide)]

theorem applyUnsucc_links_encoded (c : OperationCompletionUnsuccessful) (reqH : Header)
    (hempty : chGet c.header headerLink = "") :
    (applyToHTTPRequestUnsuccessful c reqH).1 headerLink =
      baseHeaderOf c.header reqH headerLink ++ c.startLinks := by
  simp only [applyToHTTPRequestUnsuccessful]
  rw [if_pos hempty]
  rw [addLinks_at_link]
  congr 1
  rw [ite_hSet_apply _ _ _ _ _ (by decide)]
  rw [ite_hSet_apply _ _ _ _ _ (by decide)]
  rw [hSet_apply_ne _ _ _ _ (by decide)]
  rw [hSet_apply_ne _ _ _ _ (by decide)]

/-! ## Claim C10 -/

/-- Claim C10: in both completion variants, applyToHTTPRequest always
overwrites the operation-state header with the completion state
(succeeded for the successful variant, the State field for the
unsuccessful one), while the operation-id and start-time headers are
populated from the struct fields only when the caller-supplied header map
holds no nonempty value for them (a nonzero start time and nonempty id
being required to populate), and the start links are encoded into the
link header only when no link header was supplied. -/
theorem completion_request_header_population
    (cs : OperationCompletionSuccessful) (cu : OperationCompletionUnsuccessful)
    (reqHS reqHU : Header) :
    hGet (applyToHTTPRequestSuccessful cs reqHS).1 headerOperationState = "succeeded" ∧
    (chGet cs.header headerOperationID ≠ "" →
      hGet (applyToHTTPRequestSuccessful cs reqHS).1 headerOperationID =
        chGet cs.header headerOperationID) ∧
    (chGet cs.header headerOperationID = "" → cs.operationID ≠ "" →
      hGet (applyToHTTPRequestSuccessful cs reqHS).1 headerOperationID =
        cs.operationID) ∧
    (chGet cs.header headerOperationStartTime ≠ "" →
      hGet (applyToHTTPRequestSuccessful cs reqHS).1 headerOperationStartTime =
        chGet cs.header headerOperationStartTime) ∧
    (chGet cs.header headerOperationStartTime = "" → cs.startTime ≠ 0 →
      hGet (applyToHTTPRequestSuccessful cs reqHS).1 headerOperationStartTime =
        formatHTTPTime cs.startTime) ∧
    (chGet cs.header headerLink ≠ "" →
      (applyToHTTPRequestSuccessful cs reqHS).1 headerLink =
        baseHeaderOf cs.header reqHS headerLink) ∧
    (chGet cs.header headerLink = "" →
      (applyToHTTPRequestSuccessful cs reqHS).1 headerLink =
        baseHeaderOf cs.header reqHS headerLink ++ cs.startLinks) ∧
    hGet (applyToHTTPRequestUnsuccessful cu reqHU).1 headerOperationState =
      cu.state.wire ∧
    (chGet cu.header headerOperationID ≠ "" →
      hGet (applyToHTTPRequestUnsuccessful cu reqHU).1 headerOperationID =
        chGet cu.header headerOperationID) ∧
    (chGet cu.header headerOperationID = "" → cu.operationID ≠ "" →
      hGet (applyToHTTPRequestUnsuccessful cu reqHU).1 headerOperationID =
        cu.operationID) ∧
    (chGet cu.header headerOperationStartTime ≠ "" →
      hGet (applyToHTTPRequestUnsuccessful cu reqHU).1 headerOperationStartTime =
        chGet cu.header headerOperationStartTime) ∧
    (chGet cu.header headerOperationStartTime = "" → cu.startTime ≠ 0 →
      hGet (applyToHTTPRequestUnsuccessful cu reqHU).1 headerOperationStartTime =
        formatHTTPTime cu.startTime) ∧
    (chGet cu.header headerLink ≠ "" →
      (applyToHTTPRequestUnsuccessful cu reqHU).1 headerLink =
        baseHeaderOf cu.header reqHU headerLink) ∧
    (chGet cu.header headerLink = "" →
      (applyToHTTPRequestUnsuccessful cu reqHU).1 headerLink =
        baseHeaderOf cu.header reqHU headerLink ++ cu.startLinks) :=
  ⟨applySucc_state cs reqHS,
   applySucc_opId_kept cs reqHS,
   applySucc_opId_populated cs reqHS,
   applySucc_startTime_kept cs reqHS,
   applySucc_startTime_populated cs reqHS,
   applySucc_links_kept cs reqHS,
   applySucc_links_encoded cs reqHS,
   applyUnsucc_state cu reqHU,
   applyUnsucc_opId_kept cu reqHU,
   applyUnsucc_opId_populated cu reqHU,
   applyUnsucc_startTime_kept cu reqHU,
   applyUnsucc_startTime_populated cu reqHU,
   applyUnsucc_links_kept cu reqHU,
   applyUnsucc_links_encoded cu reqHU⟩

/-- Claim C10, witness: a successful completion with a caller-supplied
operation-id header keeps it; an unsuccessful canceled completion with no
caller headers gets its OperationID field and its state written. -/
theorem completion_request_header_population_witness :
    hGet (applyToHTTPRequestSuccessful
        { header := some (hSet emptyHeader headerOperationID "given")
          body := []
          operationID := "mine"
          startTime := 0
          startLinks := [] } emptyHeader).1 headerOperationState = "succeeded" ∧
    hGet (applyToHTTPRequestSuccessful
        { header := some (hSet emptyHeader headerOperationID "given")
          body := []
          operationID := "mine"
          startTime := 0
          startLinks := [] } emptyHeader).1 headerOperationID = "given" ∧
    hGet (applyToHTTPRequestUnsuccessful
        { header := none
          state := .canceled
          operationID := "op-9"
          startTime := 0
          startLinks := []
          failure := none } emptyHeader).1 headerOperationState = "canceled" ∧
    hGet (applyToHTTPRequestUnsuccessful
        { header := none
          state := .canceled
          operationID := "op-9"
          startTime := 0
          startLinks := []
          failure := none } emptyHeader).1 headerOperationID = "op-9" :=
  ⟨(completion_request_header_population
      { header := some (hSet emptyHeader headerOperationID "given"), body := [],
        operationID := "mine", startTime := 0, startLinks := [] }
      { header := none, state := .canceled, operationID := "op-9", startTime := 0,
        startLinks := [], failure := none } emptyHeader emptyHeader).1,
   (completion_request_header_population
      { header := some (hSet emptyHeader headerOperationID "given"), body := [],
        operationID := "mine", startTime := 0, startLinks := [] }
      { header := none, state := .canceled, operationID := "op-9", startTime := 0,
        startLinks := [], failure := none } emptyHeader emptyHeader).2.1 (by decide),
   (completion_request_header_population
      { header := some (hSet emptyHeader headerOperationID "given"), body := [],
        operationID := "mine", startTime := 0, startLinks := [] }
      { header := none, state := .canceled, operationID := "op-9", startTime := 0,
        startLinks := [], failure := none } emptyHeader emptyHeader).2.2.2.2.2.2.2.1,
   (completion_request_header_population
      { header := some (hSet emptyHeader headerOperationID "given"), body := [],
        operationID := "mine", startTime := 0, startLinks := [] }
      { header := none, state := .canceled, operationID := "op-9", startTime := 0,
        startLinks := [], failure := none } emptyHeader emptyHeader).2.2.2.2.2.2.2.2.2.1
     (by decide) (by decide)⟩

/-! ## URL path layer: escape lemmas -/

theorem upperHexDigit_ne_47 (n : Nat) (hn : n < 16) : upperHexDigit n ≠ 47 := by
  unfold upperHexDigit
  split_ifs <;> omega

theorem unhex_upperHexDigit (n : Nat) (hn : n < 16) :
    unhexByte (upperHexDigit n) = some n := by
  interval_cases n <;> decide

theorem unescape_cons_ne (c : Nat) (r : Bytes) (hc : c ≠ 37) :
    unescapePathSegment (c :: r) = (unescapePathSegment r).map fun x => c :: x := by
  cases r with
  | nil => simp [unescapePathSegment, hc]
  | cons a r2 =>
    cases r2 with
    | nil => simp [unescapePathSegment, hc]
    | cons b rest2 => simp [unescapePathSegment, hc]

theorem unescape_block (a b : Nat) (r : Bytes) :
    unescapePathSegment (37 :: a :: b :: r) =
      (unhexByte a).bind fun x => (unhexByte b).bind fun y =>
        (unescapePathSegment r).map fun rr => (16 * x + y) :: rr := by
  simp [unescapePathSegment]

theorem unescape_escape (s : Bytes) (hs : ∀ c ∈ s, c < 256) :
    unescapePathSegment (escapePathSegment s) = some s := by
  induction s with
  | nil => rfl
  | cons c rest ih =>
    have hc : c < 256 := hs c (List.mem_cons_self _ _)
    have hrest : ∀ x ∈ rest, x < 256 := fun x hx => hs x (List.mem_cons_of_mem _ hx)
    by_cases he : shouldEscapePathSegment c
    · simp only [escapePathSegment]
      rw [if_pos he]
      show unescapePathSegment
          (37 :: upperHexDigit (c / 16) :: upperHexDigit (c % 16) :: escapePathSegment rest) =
        some (c :: rest)
      rw [unescape_block]
      rw [unhex_upperHexDigit (c / 16) (by omega), unhex_upperHexDigit (c % 16) (by omega),
        ih hrest]
      have hcc : 16 * (c / 16) + c % 16 = c := by omega
      simp [hcc]
    · have hc37 : c ≠ 37 := by
        intro hcc
        rw [hcc] at he
        exact he (by decide)
      simp only [escapePathSegment]
      rw [if_neg he]
      show unescapePathSegment (c :: escapePathSegment rest) = some (c :: rest)
      rw [unescape_cons_ne c _ hc37, ih hrest]
      rfl

theorem slash_not_mem_escape (s : Bytes) (hs : ∀ c ∈ s, c < 256) :
    47 ∉ escapePathSegment s := by
  induction s with
  | nil => simp [escapePathSegment]
  | cons c rest ih =>
    have hc : c < 256 := hs c (List.mem_cons_self _ _)
    have hrest : ∀ x ∈ rest, x < 256 := fun x hx => hs x (List.mem_cons_of_mem _ hx)
    by_cases he : shouldEscapePathSegment c
    · simp only [escapePathSegment]
      rw [if_pos he]
      simp only [List.cons_append, List.nil_append]
      intro hmem
      rcases List.mem_cons.mp hmem with h | hmem
      · exact absurd h (by decide)
      rcases List.mem_cons.mp hmem with h | hmem
      · exact upperHexDigit_ne_47 (c / 16) (by omega) h.symm
      rcases List.mem_cons.mp hmem with h | hmem
      · exact upperHexDigit_ne_47 (c % 16) (by omega) h.symm
      · exact ih hrest hmem
    · have hc47 : c ≠ 47 := by
        intro hcc
        rw [hcc] at he
        exact he (by decide)
      simp only [escapePathSegment]
      rw [if_neg he]
      simp only [List.cons_append, List.nil_append]
      intro hmem
      rcases List.mem_cons.mp hmem with h | hmem
      · exact hc47 h.symm
      · exact ih hrest hmem

theorem escape_ne_special (s : Bytes) (hs : ∀ c ∈ s, c < 256)
    (h0 : s ≠ []) (h1 : s ≠ [46]) (h2 : s ≠ [46, 46]) :
    escapePathSegment s ≠ [] ∧ escapePathSegment s ≠ [46] ∧
      escapePathSegment s ≠ [46, 46] := by
  refine ⟨?_, ?_, ?_⟩ <;> intro he <;> have hre := unescape_escape s hs <;> rw [he] at hre
  · simp only [unescapePathSegment, Option.some_inj] at hre
    exact h0 hre.symm
  · simp [unescapePathSegment] at hre
    exact h1 hre.symm
  · simp [unescapePathSegment] at hre
    exact h2 hre.symm

/-! ## Claim C8: path lemmas -/

theorem takeWhile_append_sat (p : Nat → Bool) (a : Bytes) (y : Nat) (r : Bytes)
    (ha : ∀ x ∈ a, p x = true) (hy : p y = false) :
    (a ++ y :: r).takeWhile p = a := by
  induction a with
  | nil => simp [List.takeWhile_cons, hy]
  | cons x xs ih =>
    have hx : p x = true := ha x (List.mem_cons_self _ _)
    simp [List.takeWhile_cons, hx,
      ih (fun z hz => ha z (List.mem_cons_of_mem _ hz))]

theorem dropWhile_append_sat (p : Nat → Bool) (a : Bytes) (y : Nat) (r : Bytes)
    (ha : ∀ x ∈ a, p x = true) (hy : p y = false) :
    (a ++ y :: r).dropWhile p = y :: r := by
  induction a with
  | nil => simp [List.dropWhile_cons, hy]
  | cons x xs ih =>
    have hx : p x = true := ha x (List.mem_cons_self _ _)
    simp [List.dropWhile_cons, hx,
      ih (fun z hz => ha z (List.mem_cons_of_mem _ hz))]

theorem pathSplit_append (pre c : Bytes) (hc : 47 ∉ c) :
    pathSplit (pre ++ 47 :: c) = (pre ++ [47], c) := by
  have hall : ∀ x ∈ c.reverse, (decide (x ≠ 47)) = true := by
    intro x hx
    rw [decide_eq_true_eq]
    intro hx47
    rw [hx47] at hx
    exact hc (List.mem_reverse.mp hx)
  have h47f : (decide ((47 : Nat) ≠ 47)) = false := by decide
  have hrev : (pre ++ 47 :: c).reverse = c.reverse ++ 47 :: pre.reverse := by
    simp
  unfold pathSplit
  rw [hrev]
  rw [takeWhile_append_sat _ _ _ _ hall h47f, dropWhile_append_sat _ _ _ _ hall h47f]
  simp

theorem pathBase_slash_wrap (b : Bytes) (hb : b ≠ []) (hbs : 47 ∉ b) :
    pathBase (47 :: (b ++ [47])) = b := by
  have hrevne : b.reverse ≠ [] := by simpa using hb
  obtain ⟨hd, tl, hbe⟩ := List.exists_cons_of_ne_nil hrevne
  have hhd : hd ≠ 47 := by
    intro h
    have hmem : hd ∈ b.reverse := by
      rw [hbe]
      exact List.mem_cons_self _ _
    rw [h] at hmem
    exact hbs (List.mem_reverse.mp hmem)
  have hall : ∀ x ∈ b.reverse, (decide (x ≠ 47)) = true := by
    intro x hx
    rw [decide_eq_true_eq]
    intro hx47
    rw [hx47] at hx
    exact hbs (List.mem_reverse.mp hx)
  have h47f : (decide ((47 : Nat) ≠ 47)) = false := by decide
  have hrev : (47 :: (b ++ [47])).reverse = 47 :: (b.reverse ++ [47]) := by
    simp
  have hdrop : List.dropWhile (fun c => decide (c = 47)) ((47 :: (b ++ [47])).reverse) =
      b.reverse ++ [47] := by
    rw [hrev]
    rw [List.dropWhile_cons]
    rw [if_pos (show decide ((47 : Nat) = 47) = true from by decide)]
    rw [hbe, List.cons_append, List.dropWhile_cons]
    rw [if_neg (show ¬(decide (hd = 47) = true) from by simp [hhd])]
  simp only [pathBase]
  rw [if_neg (show ¬(47 :: (b ++ [47]) = []) from by simp)]
  rw [hdrop]
  rw [if_neg (show ¬(b.reverse ++ [47] = []) from by simp)]
  rw [takeWhile_append_sat _ _ _ _ hall h47f]
  exact List.reverse_reverse b

theorem splitOnSlash_cons_slash (r : Bytes) :
    splitOnSlash (47 :: r) = [] :: splitOnSlash r := by
  simp [splitOnSlash]

theorem splitOnSlash_cons_ne (c : Nat) (r : Bytes) (hc : c ≠ 47) :
    splitOnSlash (c :: r) =
      match splitOnSlash r with
      | h :: t => (c :: h) :: t
      | [] => [[c]] := by
  simp [splitOnSlash, hc]

theorem splitOnSlash_sfree (s : Bytes) (hs : 47 ∉ s) : splitOnSlash s = [s] := by
  induction s with
  | nil => rfl
  | cons c r ih =>
    have hc : c ≠ 47 := by
      intro h
      rw [h] at hs
      exact hs (List.mem_cons_self _ _)
    have hr : 47 ∉ r := fun h => hs (List.mem_cons_of_mem _ h)
    rw [splitOnSlash_cons_ne c r hc, ih hr]

theorem splitOnSlash_append (s : Bytes) (hs : 47 ∉ s) (r : Bytes) :
    splitOnSlash (s ++ 47 :: r) = s :: splitOnSlash r := by
  induction s with
  | nil => exact splitOnSlash_cons_slash r
  | cons c cs ih =>
    have hc : c ≠ 47 := by
      intro h
      rw [h] at hs
      exact hs (List.mem_cons_self _ _)
    have hcs : 47 ∉ cs := fun h => hs (List.mem_cons_of_mem _ h)
    rw [List.cons_append, splitOnSlash_cons_ne c _ hc, ih hcs]

theorem cleanSegs_base (stack : List Bytes) : cleanSegs stack [] = stack.reverse := by
  simp [cleanSegs]

theorem cleanSegs_empty (stack : List Bytes) (rest : List Bytes) :
    cleanSegs stack ([] :: rest) = cleanSegs stack rest := by
  simp [cleanSegs]

theorem cleanSegs_push (stack : List Bytes) (s : Bytes) (rest : List Bytes)
    (h0 : s ≠ []) (h1 : s ≠ [46]) (h2 : s ≠ [46, 46]) :
    cleanSegs stack (s :: rest) = cleanSegs (s :: stack) rest := by
  simp [cleanSegs, h0, h1, h2]

theorem stripMount_append (p r : Bytes) : stripMount p (p ++ r) = some r := by
  induction p with
  | nil => rfl
  | cons a p2 ih => simp [stripMount, ih]

theorem goPathJoin_four (a b c : Bytes) :
    goPathJoin [[47], a, b, c] =
      cleanRootedPath (47 :: 47 :: (a ++ 47 :: (b ++ 47 :: c))) := by
  simp [goPathJoin, goJoinStep, List.append_assoc]

/-! ## URL path layer: composition, and claim C8 -/

/-- The escaped client path for segments that are nonempty and not dot or
dotdot: the escaped segments survive the path cleaning inside
URL.JoinPath, so the wire path is exactly the three escaped segments
joined by slashes under the root. -/
theorem clientInfoRawPath_good (svc op id : Bytes)
    (hsg : goodSeg svc) (hog : goodSeg op) (hig : goodSeg id) :
    clientInfoRawPath svc op id =
      47 :: (escapePathSegment svc ++ 47 :: (escapePathSegment op ++ 47 ::
        escapePathSegment id)) := by
  obtain ⟨hs0, hs1, hs2, hsB⟩ := hsg
  obtain ⟨ho0, ho1, ho2, hoB⟩ := hog
  obtain ⟨hi0, hi1, hi2, hiB⟩ := hig
  have heaS : 47 ∉ escapePathSegment svc := slash_not_mem_escape svc hsB
  have hebS : 47 ∉ escapePathSegment op := slash_not_mem_escape op hoB
  have hecS : 47 ∉ escapePathSegment id := slash_not_mem_escape id hiB
  obtain ⟨hea0, hea1, hea2⟩ := escape_ne_special svc hsB hs0 hs1 hs2
  obtain ⟨heb0, heb1, heb2⟩ := escape_ne_special op hoB ho0 ho1 ho2
  obtain ⟨hec0, hec1, hec2⟩ := escape_ne_special id hiB hi0 hi1 hi2
  have hsplit : splitOnSlash (47 :: 47 :: (escapePathSegment svc ++ 47 ::
      (escapePathSegment op ++ 47 :: escapePathSegment id))) =
      [[], [], escapePathSegment svc, escapePathSegment op, escapePathSegment id] := by
    rw [splitOnSlash_cons_slash, splitOnSlash_cons_slash,
      splitOnSlash_append _ heaS, splitOnSlash_append _ hebS,
      splitOnSlash_sfree _ hecS]
  have hclean : cleanSegs [] [[], [], escapePathSegment svc, escapePathSegment op,
      escapePathSegment id] =
      [escapePathSegment svc, escapePathSegment op, escapePathSegment id] := by
    rw [cleanSegs_empty, cleanSegs_empty,
      cleanSegs_push _ _ _ hea0 hea1 hea2,
      cleanSegs_push _ _ _ heb0 heb1 heb2,
      cleanSegs_push _ _ _ hec0 hec1 hec2,
      cleanSegs_base]
    rfl
  unfold clientInfoRawPath
  rw [goPathJoin_four]
  simp only [cleanRootedPath]
  rw [hsplit, hclean]
  rw [if_neg (by simp)]
  simp [joinSegs]

/-- The split-and-unescape of getOperationInfo inverts the segment
escaping whenever it is handed the true wire path of the request. -/
theorem getOperationInfoParse_escaped (op id : Bytes)
    (hog : goodSeg op) (hig : goodSeg id) :
    getOperationInfoParse (47 :: (escapePathSegment op ++ 47 ::
      escapePathSegment id)) = some (op, id) := by
  obtain ⟨ho0, ho1, ho2, hoB⟩ := hog
  obtain ⟨hi0, hi1, hi2, hiB⟩ := hig
  have hebS : 47 ∉ escapePathSegment op := slash_not_mem_escape op hoB
  have hecS : 47 ∉ escapePathSegment id := slash_not_mem_escape id hiB
  obtain ⟨heb0, heb1, heb2⟩ := escape_ne_special op hoB ho0 ho1 ho2
  have hsplit2 : pathSplit (47 :: (escapePathSegment op ++ 47 ::
      escapePathSegment id)) =
      ((47 :: escapePathSegment op) ++ [47], escapePathSegment id) :=
    pathSplit_append (47 :: escapePathSegment op) (escapePathSegment id) hecS
  have hbase : pathBase ((47 :: escapePathSegment op) ++ [47]) =
      escapePathSegment op :=
    pathBase_slash_wrap (escapePathSegment op) heb0 hebS
  simp only [getOperationInfoParse, hsplit2]
  rw [unescape_escape id hiB, hbase, unescape_escape op hoB]
  simp

/-- Claim C8: the handlers read request.URL.RawPath, which net/url leaves
EMPTY whenever the wire path equals the default encoding of the decoded
path (no segment containing a slash, semicolon or comma).  For the plain
triple service svc, operation ab, id cd the wire path /ab/cd under the
mount needs no escaping, so the server parses the empty string and hands
operation "." and id "" to the user Handler instead of the originals; the
same parse recovers the originals exactly when a segment (here the
operation a/b) forces the raw path to be preserved.  This contradicts the
spec, under which the server decodes the path segments back to the
original strings before calling the Handler, and the routing in the same
file, which matches the escaped path. -/
theorem c8_rawPath_dropped_code_bug :
    c8RoundTrip [115, 118, 99] [97, 98] [99, 100] = some ([46], []) ∧
    some ([46], []) ≠ some (([97, 98] : Bytes), ([99, 100] : Bytes)) ∧
    c8RoundTrip [115, 118, 99] [97, 47, 98] [99, 100] =
      some ([97, 47, 98], [99, 100]) := by
  decide
